import Mathlib

/-!
Verification development for the koa-patch response-body forwarding demo.

Part I embeds the demo driver code of `src/index.js` and
`src/unnamed/part_001`: the mutable `testResults` counter records and the
four test operations (`simulateOriginalBehavior`, `simulateFixedBehavior`,
`testBuggyBehavior`, `testFixedBehavior`).

Part II embeds the body-slot / cleanup-coordinator / forwarding-pipeline
subsystem: the replacement fix of `testFixedBehavior`
(observe-then-destroy on the displaced stream) together with the parts of
the subsystem that live outside `src/` and are modelled from the spec
(slot assignment with generation counter, retirement tracking, pipeline
terminal transitions).
-/

namespace KoaPatch

/-! ## Part I: the demo counters of `src/index.js` -/

/-- One entry of `testResults` in `src/index.js` (`original` or `patched`):
`success`, `error`, `activeConnections`, `streamsCreated`, `activeStreams`. -/
structure Entry where
  success : Bool
  error : Option String
  activeConnections : Int
  streamsCreated : Nat
  activeStreams : Int
  deriving Repr, DecidableEq

/-- The initial value of each `testResults` entry in `src/index.js` lines 6-21. -/
def Entry.init : Entry :=
  { success := false, error := none, activeConnections := 0,
    streamsCreated := 0, activeStreams := 0 }

/-- The `testResults` record of `src/index.js`. -/
structure TestResults where
  original : Entry
  patched : Entry
  deriving Repr, DecidableEq

def TestResults.init : TestResults := { original := Entry.init, patched := Entry.init }

/-- The JSON result object returned by the simulate functions of
`src/index.js` (lines 79-86 and 136-142). -/
structure SimResult where
  success : Bool
  error : Option String
  activeConnections : Int
  activeStreams : Int
  streamsCreated : Nat
  deriving Repr, DecidableEq

/-- Synchronous part of `simulateOriginalBehavior` (`src/index.js` lines 52-87):
increments `streamsCreated`, `activeConnections`, `activeStreams` on
`testResults.original` and returns a result object with `success: false`
and a fixed error message, snapshotting the counters. -/
def simulateOriginalBehavior (tr : TestResults) : SimResult × TestResults :=
  let o := tr.original
  let o := { o with
    streamsCreated := o.streamsCreated + 1,
    activeConnections := o.activeConnections + 1,
    activeStreams := o.activeStreams + 1 }
  let tr := { tr with original := o }
  ({ success := false,
     error := some "Stream continues after client disconnect with .pipe(), causing memory leak",
     activeConnections := o.activeConnections,
     activeStreams := o.activeStreams,
     streamsCreated := o.streamsCreated }, tr)

/-- The `setTimeout` callback of `simulateOriginalBehavior`
(`src/index.js` lines 67-74): on simulated client disconnect it decrements
`activeConnections` only; `activeStreams` is deliberately left untouched
(the leak). -/
def originalDisconnect (tr : TestResults) : TestResults :=
  { tr with original :=
      { tr.original with activeConnections := tr.original.activeConnections - 1 } }

/-- Synchronous part of `simulateFixedBehavior` (`src/index.js` lines 90-143):
increments the `patched` counters and returns a result object with
`success: true` and `error: null`. -/
def simulateFixedBehavior (tr : TestResults) : SimResult × TestResults :=
  let p := tr.patched
  let p := { p with
    streamsCreated := p.streamsCreated + 1,
    activeConnections := p.activeConnections + 1,
    activeStreams := p.activeStreams + 1 }
  let tr := { tr with patched := p }
  ({ success := true,
     error := none,
     activeConnections := p.activeConnections,
     activeStreams := p.activeStreams,
     streamsCreated := p.streamsCreated }, tr)

/-- The `pipeline` completion callback of `simulateFixedBehavior`
(`src/index.js` lines 112-125): decrements `patched.activeConnections`
and `patched.activeStreams` when the stream ends, errors or aborts. -/
def pipelineCleanup (tr : TestResults) : TestResults :=
  { tr with patched :=
      { tr.patched with
        activeConnections := tr.patched.activeConnections - 1,
        activeStreams := tr.patched.activeStreams - 1 } }

/-- The operations of `src/index.js` that touch `testResults`: a request to
`/test-original` (synchronous part), its delayed disconnect callback, a
request to `/test-fixed` (synchronous part), and the pipeline cleanup
callback. -/
inductive DemoOp
  | origRequest
  | origDisconnect
  | fixedRequest
  | fixedCleanup
  deriving Repr, DecidableEq

/-- Apply one demo operation to the shared `testResults` state. -/
def applyDemoOp (op : DemoOp) (tr : TestResults) : TestResults :=
  match op with
  | .origRequest => (simulateOriginalBehavior tr).2
  | .origDisconnect => originalDisconnect tr
  | .fixedRequest => (simulateFixedBehavior tr).2
  | .fixedCleanup => pipelineCleanup tr

/-- Run a sequence of demo operations from a starting state. -/
def runDemo (ops : List DemoOp) (tr : TestResults) : TestResults :=
  match ops with
  | [] => tr
  | op :: rest => runDemo rest (applyDemoOp op tr)

/-- Number of `/test-original` request operations in a sequence. -/
def countOrigRequests (ops : List DemoOp) : Nat :=
  ops.countP (fun op => op = DemoOp.origRequest)

/-! ## Part I: the result objects of `src/unnamed/part_001` -/

/-- One entry of `testResults` in `src/unnamed/part_001` (`buggy` or `fixed`). -/
structure PartEntry where
  unhandledErrors : Nat
  streamsDestroyed : Nat
  testComplete : Bool
  deriving Repr, DecidableEq

/-- The JSON result object resolved by `testBuggyBehavior` and
`testFixedBehavior` in `src/unnamed/part_001`. -/
structure PartResult where
  unhandledErrors : Nat
  streamsDestroyed : Nat
  success : Bool
  message : String
  deriving Repr, DecidableEq

/-- The result object `testBuggyBehavior` resolves with
(`src/unnamed/part_001` lines 84-91), as a function of the counter values
observed when the 300ms timer fires: `success` is the literal `false`. -/
def testBuggyResult (r : PartEntry) : PartResult :=
  { unhandledErrors := r.unhandledErrors,
    streamsDestroyed := r.streamsDestroyed,
    success := false,
    message := if r.unhandledErrors > 0
      then "Unhandled error detected from replaced stream!"
      else "Waiting for error..." }

/-- The result object `testFixedBehavior` resolves with
(`src/unnamed/part_001` lines 142-147): `success` is the literal `true`
and the message is constant. -/
def testFixedResult (r : PartEntry) : PartResult :=
  { unhandledErrors := r.unhandledErrors,
    streamsDestroyed := r.streamsDestroyed,
    success := true,
    message := "No unhandled errors! Old stream properly cleaned up." }

/-! ## Part II: body slot, cleanup coordinator and forwarding pipeline

The retire step (observe-then-destroy, guarded by `typeof original.pipe ===
'function'` and the identity check `original !== body`) embeds the fix code
of `testFixedBehavior` (`src/unnamed/part_001` lines 124-137).  The slot
with its generation counter, the retirement-idempotency guard, and the
pipeline state machine live in the patched Koa library, which is not part
of `src/`; they are modelled from the spec (sections 4.2-4.4). -/

/-- A body value as assigned by application code.  `ident` is the object
identity of the value (two assignments of the very same object share
`ident`); `payload` is its content, so that two distinct objects may be
equal in value while differing in identity. -/
structure BodyVal where
  ident : Nat
  payload : Nat
  streamLike : Bool
  deriving Repr, DecidableEq

/-- A source produced by the adapter registry for an assigned body value:
`sid` is the allocation id of this Source instance, `ident`/`payload` are
inherited from the value, `streamLike` tells whether cancellation is
needed (stream) or a no-op (inert bytes/text). -/
structure Source where
  sid : Nat
  ident : Nat
  payload : Nat
  streamLike : Bool
  deriving Repr, DecidableEq

/-- Observable events of the subsystem, in emission order. -/
inductive Event
  | attachObserver (sid : Nat)
  | cancel (sid : Nat)
  | reportError (sid : Nat)
  | unhandledFault (sid : Nat)
  | errorObserved (sid : Nat)
  | sinkWrite (sid : Nat)
  deriving Repr, DecidableEq

/-- Pipeline session phases (spec 4.4). -/
inductive Phase
  | draining
  | completed
  | errored
  | aborted
  deriving Repr, DecidableEq

/-- A forwarding session: the source being drained, the generation it was
captured under, and its phase. -/
structure Session where
  src : Source
  gen : Nat
  phase : Phase
  deriving Repr, DecidableEq

/-- State of the response-body subsystem: the active body slot with its
generation counter, the allocation counter for Source instances, the
cleanup records (retired ids, attached observers, number of retire
invocations), the list of Source instances ever assigned, the event
trace, and the pipeline session. -/
structure St where
  current : Option Source
  generation : Nat
  nextSid : Nat
  retiredSids : List Nat
  observers : List Nat
  retireCalls : Nat
  assigned : List Source
  events : List Event
  session : Option Session
  deriving Repr, DecidableEq

def St.init : St :=
  { current := none, generation := 0, nextSid := 0, retiredSids := [],
    observers := [], retireCalls := 0, assigned := [], events := [],
    session := none }

/-- Cleanup coordinator, `retire(source)` (spec 4.3; the observe-then-destroy
body mirrors `src/unnamed/part_001` lines 128-136): no-op if already
retired (idempotency guard, tracked per source instance); otherwise, for a
stream-like source, attach a no-op error observer and then cancel; for an
inert source, do nothing further. -/
def retire (s : Source) (st : St) : St :=
  let st' := { st with retireCalls := st.retireCalls + 1 }
  if s.sid ∈ st'.retiredSids then st'
  else
    let st'' := { st' with retiredSids := s.sid :: st'.retiredSids }
    if s.streamLike then
      { st'' with
        observers := s.sid :: st''.observers,
        events := st''.events ++ [Event.attachObserver s.sid, Event.cancel s.sid] }
    else st''

/-- Adapter registry: construct a fresh Source instance for a body value. -/
def adapt (v : BodyVal) (st : St) : Source × St :=
  ({ sid := st.nextSid, ident := v.ident, payload := v.payload,
     streamLike := v.streamLike },
   { st with nextSid := st.nextSid + 1 })

/-- `set_body(value)` (spec 4.2; the identity comparison mirrors
`original !== body` in `src/unnamed/part_001` line 127): if the assigned
value is identical (by object identity, not value equality) to the current
one, this is a no-op with respect to cleanup; otherwise retire the
displaced source, construct a fresh Source, store it and advance the
generation. -/
def set_body (v : BodyVal) (st : St) : St :=
  match st.current with
  | some cur =>
      if cur.ident = v.ident then st
      else
        let st1 := retire cur st
        let (s, st2) := adapt v st1
        { st2 with
          current := some s,
          generation := st2.generation + 1,
          assigned := st2.assigned ++ [s] }
  | none =>
      let (s, st2) := adapt v st
      { st2 with
        current := some s,
        generation := st2.generation + 1,
        assigned := st2.assigned ++ [s] }

/-- `set_body(null)` / `clear_body()`: retire the displaced source and
clear the slot, advancing the generation. -/
def clear_body (st : St) : St :=
  match st.current with
  | some cur =>
      let st1 := retire cur st
      { st1 with current := none, generation := st1.generation + 1 }
  | none => st

/-- Response finalize: the cleanup coordinator is invoked on the source
still active at finalize, and the slot is cleared. -/
def finalize (st : St) : St :=
  match st.current with
  | some cur =>
      let st1 := retire cur st
      { st1 with current := none }
  | none => st

/-- `begin(slot)` (spec 4.4): capture the current source and generation as
a draining session, when the slot is non-empty and no session is active. -/
def beginSession (st : St) : St :=
  match st.current, st.session with
  | some s, none =>
      { st with session := some { src := s, gen := st.generation, phase := Phase.draining } }
  | _, _ => st

/-- Asynchronous error delivery from a source (spec 4.4 and 7): if the
source has an error observer attached (it was retired as stream-like), the
error is observed and discarded; otherwise, if it is the source of the
draining session and the session is live (generation matches), the
pipeline retires it, reports the error and transitions to Errored; a stale
session reports nothing; in every remaining case the error is an
unhandled fault. -/
def raiseError (s : Source) (st : St) : St :=
  if s.sid ∈ st.observers then
    { st with events := st.events ++ [Event.errorObserved s.sid] }
  else
    match st.session with
    | some ses =>
        if ses.phase = Phase.draining ∧ ses.src.sid = s.sid then
          if ses.gen = st.generation then
            let st1 := retire ses.src st
            { st1 with
              events := st1.events ++ [Event.reportError s.sid],
              session := some { ses with phase := Phase.errored } }
          else
            { st with session := some { ses with phase := Phase.errored } }
        else { st with events := st.events ++ [Event.unhandledFault s.sid] }
    | none => { st with events := st.events ++ [Event.unhandledFault s.sid] }

/-- Sink abort (client disconnect) during draining (spec 4.4): retire the
session's source — the same cleanup action as the error path — and
transition to Aborted; no error is reported. -/
def sinkAbort (st : St) : St :=
  match st.session with
  | some ses =>
      if ses.phase = Phase.draining then
        let st1 := retire ses.src st
        { st1 with session := some { ses with phase := Phase.aborted } }
      else st
  | none => st

/-- End-of-data during draining (spec 4.4): transition to Completed; no
retirement, no report. -/
def completeSession (st : St) : St :=
  match st.session with
  | some ses =>
      if ses.phase = Phase.draining then
        { st with session := some { ses with phase := Phase.completed } }
      else st
  | none => st

/-- One chunk produced by the session's source reaching the sink (spec 4.4
and I4): a live draining session writes the chunk to the sink; a stale
session (captured generation no longer matches the slot's) discards the
write — with no error — and stops producing further writes. -/
def pipeWrite (st : St) : St :=
  match st.session with
  | some ses =>
      if ses.phase = Phase.draining then
        if ses.gen = st.generation then
          { st with events := st.events ++ [Event.sinkWrite ses.src.sid] }
        else
          { st with session := none }
      else st
  | none => st

/-- Terminal convergence (spec 4.4): a session in a terminal phase is
destroyed, and the slot is cleared when the session's generation still
matches the slot's. -/
def converge (st : St) : St :=
  match st.session with
  | some ses =>
      if ses.phase = Phase.draining then st
      else
        { st with
          session := none,
          current := if ses.gen = st.generation then none else st.current }
  | none => st

/-- Slot-level operations: the application-facing `set_body` calls
(including `set_body(null)`). -/
inductive SlotOp
  | assign (v : BodyVal)
  | clear
  deriving Repr, DecidableEq

def applySlotOp (op : SlotOp) (st : St) : St :=
  match op with
  | .assign v => set_body v st
  | .clear => clear_body st

/-- Run a sequence of slot operations. -/
def runSlot (ops : List SlotOp) (st : St) : St :=
  match ops with
  | [] => st
  | op :: rest => runSlot rest (applySlotOp op st)

/-- All operations of the subsystem, for whole-system trace properties. -/
inductive SysOp
  | assign (v : BodyVal)
  | clear
  | finalizeOp
  | beginOp
  | raise (s : Source)
  | abortOp
  | completeOp
  | writeOp
  | convergeOp
  deriving Repr

def applySysOp (op : SysOp) (st : St) : St :=
  match op with
  | .assign v => set_body v st
  | .clear => clear_body st
  | .finalizeOp => finalize st
  | .beginOp => beginSession st
  | .raise s => raiseError s st
  | .abortOp => sinkAbort st
  | .completeOp => completeSession st
  | .writeOp => pipeWrite st
  | .convergeOp => converge st

def runSys (ops : List SysOp) (st : St) : St :=
  match ops with
  | [] => st
  | op :: rest => runSys rest (applySysOp op st)

/-- Left-to-right scan of a trace checking that every `cancel sid` is
preceded (strictly earlier in the trace) by an `attachObserver sid`;
`seen` accumulates the observers attached so far. -/
def cancelsCovered (seen : List Nat) : List Event → Bool
  | [] => true
  | Event.attachObserver sid :: rest => cancelsCovered (sid :: seen) rest
  | Event.cancel sid :: rest => decide (sid ∈ seen) && cancelsCovered seen rest
  | _ :: rest => cancelsCovered seen rest

/-! ## Helper lemmas -/

theorem retire_already (s : Source) (st : St) (h : s.sid ∈ st.retiredSids) :
    retire s st = { st with retireCalls := st.retireCalls + 1 } := by
  simp [retire, h]

theorem retire_stream (s : Source) (st : St) (h : s.sid ∉ st.retiredSids)
    (hs : s.streamLike = true) :
    retire s st =
      { st with
        retireCalls := st.retireCalls + 1,
        retiredSids := s.sid :: st.retiredSids,
        observers := s.sid :: st.observers,
        events := st.events ++ [Event.attachObserver s.sid, Event.cancel s.sid] } := by
  simp [retire, h, hs]

theorem retire_inert (s : Source) (st : St) (h : s.sid ∉ st.retiredSids)
    (hs : s.streamLike = false) :
    retire s st =
      { st with
        retireCalls := st.retireCalls + 1,
        retiredSids := s.sid :: st.retiredSids } := by
  simp [retire, h, hs]

theorem mem_retire_retiredSids (s : Source) (st : St) :
    s.sid ∈ (retire s st).retiredSids := by
  by_cases h : s.sid ∈ st.retiredSids
  · rw [retire_already s st h]; exact h
  · cases hs : s.streamLike
    · rw [retire_inert s st h hs]; exact List.mem_cons_self _ _
    · rw [retire_stream s st h hs]; exact List.mem_cons_self _ _

theorem runDemo_origStreams (ops : List DemoOp) (tr : TestResults) :
    (runDemo ops tr).original.activeStreams =
      tr.original.activeStreams + countOrigRequests ops := by
  induction ops generalizing tr with
  | nil => simp [runDemo, countOrigRequests]
  | cons op rest ih =>
      cases op <;>
        simp [runDemo, applyDemoOp, countOrigRequests, ih,
          simulateOriginalBehavior, simulateFixedBehavior,
          originalDisconnect, pipelineCleanup]
      all_goals omega

@[simp] theorem retire_current (s : Source) (st : St) :
    (retire s st).current = st.current := by
  by_cases h : s.sid ∈ st.retiredSids
  · rw [retire_already s st h]
  · cases hs : s.streamLike
    · rw [retire_inert s st h hs]
    · rw [retire_stream s st h hs]

@[simp] theorem retire_generation (s : Source) (st : St) :
    (retire s st).generation = st.generation := by
  by_cases h : s.sid ∈ st.retiredSids
  · rw [retire_already s st h]
  · cases hs : s.streamLike
    · rw [retire_inert s st h hs]
    · rw [retire_stream s st h hs]

@[simp] theorem retire_nextSid (s : Source) (st : St) :
    (retire s st).nextSid = st.nextSid := by
  by_cases h : s.sid ∈ st.retiredSids
  · rw [retire_already s st h]
  · cases hs : s.streamLike
    · rw [retire_inert s st h hs]
    · rw [retire_stream s st h hs]

@[simp] theorem retire_assigned (s : Source) (st : St) :
    (retire s st).assigned = st.assigned := by
  by_cases h : s.sid ∈ st.retiredSids
  · rw [retire_already s st h]
  · cases hs : s.streamLike
    · rw [retire_inert s st h hs]
    · rw [retire_stream s st h hs]

@[simp] theorem retire_session (s : Source) (st : St) :
    (retire s st).session = st.session := by
  by_cases h : s.sid ∈ st.retiredSids
  · rw [retire_already s st h]
  · cases hs : s.streamLike
    · rw [retire_inert s st h hs]
    · rw [retire_stream s st h hs]

theorem set_body_none (v : BodyVal) (st : St) (hcur : st.current = none) :
    set_body v st =
      St.mk (some ⟨st.nextSid, v.ident, v.payload, v.streamLike⟩)
        (st.generation + 1) (st.nextSid + 1) st.retiredSids st.observers
        st.retireCalls
        (st.assigned ++ [⟨st.nextSid, v.ident, v.payload, v.streamLike⟩])
        st.events st.session := by
  simp [set_body, hcur, adapt]

theorem set_body_same (v : BodyVal) (st : St) (cur : Source)
    (hcur : st.current = some cur) (h : cur.ident = v.ident) :
    set_body v st = st := by
  simp [set_body, hcur, h]

theorem set_body_replace_stream (v : BodyVal) (st : St) (cur : Source)
    (hcur : st.current = some cur) (hne : cur.ident ≠ v.ident)
    (hfresh : cur.sid ∉ st.retiredSids) (hs : cur.streamLike = true) :
    set_body v st =
      St.mk (some ⟨st.nextSid, v.ident, v.payload, v.streamLike⟩)
        (st.generation + 1) (st.nextSid + 1) (cur.sid :: st.retiredSids)
        (cur.sid :: st.observers) (st.retireCalls + 1)
        (st.assigned ++ [⟨st.nextSid, v.ident, v.payload, v.streamLike⟩])
        (st.events ++ [Event.attachObserver cur.sid, Event.cancel cur.sid])
        st.session := by
  simp [set_body, hcur, hne, adapt, retire_stream cur st hfresh hs]

theorem set_body_replace_inert (v : BodyVal) (st : St) (cur : Source)
    (hcur : st.current = some cur) (hne : cur.ident ≠ v.ident)
    (hfresh : cur.sid ∉ st.retiredSids) (hs : cur.streamLike = false) :
    set_body v st =
      St.mk (some ⟨st.nextSid, v.ident, v.payload, v.streamLike⟩)
        (st.generation + 1) (st.nextSid + 1) (cur.sid :: st.retiredSids)
        st.observers (st.retireCalls + 1)
        (st.assigned ++ [⟨st.nextSid, v.ident, v.payload, v.streamLike⟩])
        st.events st.session := by
  simp [set_body, hcur, hne, adapt, retire_inert cur st hfresh hs]

theorem clear_body_none (st : St) (hcur : st.current = none) :
    clear_body st = st := by
  simp [clear_body, hcur]

theorem clear_body_some_stream (st : St) (cur : Source)
    (hcur : st.current = some cur) (hfresh : cur.sid ∉ st.retiredSids)
    (hs : cur.streamLike = true) :
    clear_body st =
      St.mk none (st.generation + 1) st.nextSid (cur.sid :: st.retiredSids)
        (cur.sid :: st.observers) (st.retireCalls + 1) st.assigned
        (st.events ++ [Event.attachObserver cur.sid, Event.cancel cur.sid])
        st.session := by
  simp [clear_body, hcur, retire_stream cur st hfresh hs]

theorem clear_body_some_inert (st : St) (cur : Source)
    (hcur : st.current = some cur) (hfresh : cur.sid ∉ st.retiredSids)
    (hs : cur.streamLike = false) :
    clear_body st =
      St.mk none (st.generation + 1) st.nextSid (cur.sid :: st.retiredSids)
        st.observers (st.retireCalls + 1) st.assigned st.events st.session := by
  simp [clear_body, hcur, retire_inert cur st hfresh hs]

theorem finalize_none (st : St) (hcur : st.current = none) :
    finalize st = st := by
  simp [finalize, hcur]

theorem finalize_some_stream (st : St) (cur : Source)
    (hcur : st.current = some cur) (hfresh : cur.sid ∉ st.retiredSids)
    (hs : cur.streamLike = true) :
    finalize st =
      St.mk none st.generation st.nextSid (cur.sid :: st.retiredSids)
        (cur.sid :: st.observers) (st.retireCalls + 1) st.assigned
        (st.events ++ [Event.attachObserver cur.sid, Event.cancel cur.sid])
        st.session := by
  simp [finalize, hcur, retire_stream cur st hfresh hs]

theorem finalize_some_inert (st : St) (cur : Source)
    (hcur : st.current = some cur) (hfresh : cur.sid ∉ st.retiredSids)
    (hs : cur.streamLike = false) :
    finalize st =
      St.mk none st.generation st.nextSid (cur.sid :: st.retiredSids)
        st.observers (st.retireCalls + 1) st.assigned st.events st.session := by
  simp [finalize, hcur, retire_inert cur st hfresh hs]

/-- Invariant maintained by the slot operations: assigned sources carry
allocation ids below the allocation counter and pairwise distinct; the
current source is among the assigned ones and not yet retired; the number
of retire invocations accounts for every assigned source except the one
still active; cancel events only name allocated ids; and every stream-like
assigned source has been cancelled exactly once unless still active. -/
structure SlotInv (st : St) : Prop where
  sidLt : ∀ s ∈ st.assigned, s.sid < st.nextSid
  nodup : (st.assigned.map Source.sid).Nodup
  curMem : ∀ s, st.current = some s → s ∈ st.assigned
  curFresh : ∀ s, st.current = some s → s.sid ∉ st.retiredSids
  countEq : st.retireCalls + (if st.current.isSome then 1 else 0) = st.assigned.length
  evLt : ∀ sid, Event.cancel sid ∈ st.events → sid < st.nextSid
  retLt : ∀ sid ∈ st.retiredSids, sid < st.nextSid
  cancelCnt : ∀ s ∈ st.assigned, s.streamLike = true →
    st.events.count (Event.cancel s.sid) = if st.current = some s then 0 else 1

theorem slotInv_init : SlotInv St.init := by
  constructor <;> simp [St.init]

theorem count_cancel_nextSid (st : St) (inv : SlotInv st) :
    st.events.count (Event.cancel st.nextSid) = 0 :=
  List.count_eq_zero.2 (fun hmem => by
    have := inv.evLt _ hmem
    simp at this)

theorem slotInv_set_body (v : BodyVal) (st : St) (inv : SlotInv st) :
    SlotInv (set_body v st) := by
  cases hcur : st.current with
  | none =>
      rw [set_body_none v st hcur]
      refine ⟨?_, ?_, ?_, ?_, ?_, ?_, ?_, ?_⟩ <;> dsimp only
      · intro s hs
        rcases List.mem_append.1 hs with h | h
        · exact Nat.lt_succ_of_lt (inv.sidLt s h)
        · rcases List.mem_singleton.1 h with rfl
          exact Nat.lt_succ_self _
      · simp only [List.map_append, List.map_cons, List.map_nil]
        refine List.Nodup.append inv.nodup (List.nodup_singleton _) ?_
        intro a ha hb
        rcases List.mem_map.1 ha with ⟨s, hs, rfl⟩
        have h1 := inv.sidLt s hs
        have h2 := List.mem_singleton.1 hb
        omega
      · intro s h
        injection h with h
        subst h
        exact List.mem_append_right _ (List.mem_singleton_self _)
      · intro s h hmem
        injection h with h
        subst h
        have := inv.retLt _ hmem
        simp at this
      · have h := inv.countEq
        rw [hcur] at h
        simp at h ⊢
        omega
      · intro sid h
        exact Nat.lt_succ_of_lt (inv.evLt sid h)
      · intro sid h
        exact Nat.lt_succ_of_lt (inv.retLt sid h)
      · intro s hs hstream
        rcases List.mem_append.1 hs with h | h
        · have hc := inv.cancelCnt s h hstream
          rw [hcur] at hc
          simp only [reduceCtorEq, if_false] at hc
          rw [if_neg, hc]
          intro he
          injection he with he
          have hlt := inv.sidLt s h
          rw [← he] at hlt
          simp at hlt
        · rcases List.mem_singleton.1 h with rfl
          rw [if_pos rfl]
          exact count_cancel_nextSid st inv
  | some cur =>
      by_cases hid : cur.ident = v.ident
      · rw [set_body_same v st cur hcur hid]
        exact inv
      · have hfresh : cur.sid ∉ st.retiredSids := inv.curFresh cur hcur
        have hmemc : cur ∈ st.assigned := inv.curMem cur hcur
        have hltc : cur.sid < st.nextSid := inv.sidLt cur hmemc
        cases hs : cur.streamLike
        · rw [set_body_replace_inert v st cur hcur hid hfresh hs]
          refine ⟨?_, ?_, ?_, ?_, ?_, ?_, ?_, ?_⟩ <;> dsimp only
          · intro s hsm
            rcases List.mem_append.1 hsm with h | h
            · exact Nat.lt_succ_of_lt (inv.sidLt s h)
            · rcases List.mem_singleton.1 h with rfl
              exact Nat.lt_succ_self _
          · simp only [List.map_append, List.map_cons, List.map_nil]
            refine List.Nodup.append inv.nodup (List.nodup_singleton _) ?_
            intro a ha hb
            rcases List.mem_map.1 ha with ⟨s, hsm, rfl⟩
            have h1 := inv.sidLt s hsm
            have h2 := List.mem_singleton.1 hb
            omega
          · intro s h
            injection h with h
            subst h
            exact List.mem_append_right _ (List.mem_singleton_self _)
          · intro s h hmem
            injection h with h
            subst h
            rcases List.mem_cons.1 hmem with h2 | h2
            · simp only [] at h2
              omega
            · have := inv.retLt _ h2
              simp at this
          · have h := inv.countEq
            rw [hcur] at h
            simp at h ⊢
            omega
          · intro sid h
            exact Nat.lt_succ_of_lt (inv.evLt sid h)
          · intro sid h
            rcases List.mem_cons.1 h with h2 | h2
            · omega
            · exact Nat.lt_succ_of_lt (inv.retLt sid h2)
          · intro s hsm hstream
            rcases List.mem_append.1 hsm with h | h
            · have hne : cur ≠ s := by
                intro he
                rw [← he] at hstream
                rw [hs] at hstream
                exact Bool.false_ne_true hstream
              have hc := inv.cancelCnt s h hstream
              rw [hcur, if_neg (fun hq => hne (Option.some.inj hq))] at hc
              rw [if_neg, hc]
              intro he
              injection he with he
              have hlt := inv.sidLt s h
              rw [← he] at hlt
              simp at hlt
            · rcases List.mem_singleton.1 h with rfl
              rw [if_pos rfl]
              exact count_cancel_nextSid st inv
        · rw [set_body_replace_stream v st cur hcur hid hfresh hs]
          refine ⟨?_, ?_, ?_, ?_, ?_, ?_, ?_, ?_⟩ <;> dsimp only
          · intro s hsm
            rcases List.mem_append.1 hsm with h | h
            · exact Nat.lt_succ_of_lt (inv.sidLt s h)
            · rcases List.mem_singleton.1 h with rfl
              exact Nat.lt_succ_self _
          · simp only [List.map_append, List.map_cons, List.map_nil]
            refine List.Nodup.append inv.nodup (List.nodup_singleton _) ?_
            intro a ha hb
            rcases List.mem_map.1 ha with ⟨s, hsm, rfl⟩
            have h1 := inv.sidLt s hsm
            have h2 := List.mem_singleton.1 hb
            omega
          · intro s h
            injection h with h
            subst h
            exact List.mem_append_right _ (List.mem_singleton_self _)
          · intro s h hmem
            injection h with h
            subst h
            rcases List.mem_cons.1 hmem with h2 | h2
            · simp only [] at h2
              omega
            · have := inv.retLt _ h2
              simp at this
          · have h := inv.countEq
            rw [hcur] at h
            simp at h ⊢
            omega
          · intro sid h
            rcases List.mem_append.1 h with h2 | h2
            · exact Nat.lt_succ_of_lt (inv.evLt sid h2)
            · simp at h2
              omega
          · intro sid h
            rcases List.mem_cons.1 h with h2 | h2
            · omega
            · exact Nat.lt_succ_of_lt (inv.retLt sid h2)
          · intro s hsm hstream
            rcases List.mem_append.1 hsm with h | h
            · by_cases he : s = cur
              · subst he
                have hc := inv.cancelCnt s h hstream
                rw [hcur, if_pos rfl] at hc
                rw [if_neg, List.count_append, hc]
                · simp
                · intro he2
                  injection he2 with he2
                  rw [← he2] at hltc
                  simp at hltc
              · have hsid : s.sid ≠ cur.sid := by
                  intro hq
                  exact he (List.inj_on_of_nodup_map inv.nodup h hmemc hq)
                have hc := inv.cancelCnt s h hstream
                rw [hcur, if_neg (fun hq => he (Option.some.inj hq).symm)] at hc
                rw [if_neg, List.count_append, hc]
                · simp [hsid]
                · intro he2
                  injection he2 with he2
                  have hlt := inv.sidLt s h
                  rw [← he2] at hlt
                  simp at hlt
            · rcases List.mem_singleton.1 h with rfl
              rw [if_pos rfl, List.count_append]
              have h1 := count_cancel_nextSid st inv
              have hne2 : cur.sid ≠ st.nextSid := Nat.ne_of_lt hltc
              simp [h1, List.count_cons, hne2]

theorem slotInv_clear_body (st : St) (inv : SlotInv st) :
    SlotInv (clear_body st) := by
  cases hcur : st.current with
  | none =>
      rw [clear_body_none st hcur]
      exact inv
  | some cur =>
      have hfresh : cur.sid ∉ st.retiredSids := inv.curFresh cur hcur
      have hmemc : cur ∈ st.assigned := inv.curMem cur hcur
      have hltc : cur.sid < st.nextSid := inv.sidLt cur hmemc
      cases hs : cur.streamLike
      · rw [clear_body_some_inert st cur hcur hfresh hs]
        refine ⟨?_, ?_, ?_, ?_, ?_, ?_, ?_, ?_⟩ <;> dsimp only
        · exact inv.sidLt
        · exact inv.nodup
        · intro s h
          exact Option.noConfusion h
        · intro s h
          exact Option.noConfusion h
        · have h := inv.countEq
          rw [hcur] at h
          simp at h ⊢
          omega
        · exact inv.evLt
        · intro sid h
          rcases List.mem_cons.1 h with h2 | h2
          · omega
          · exact inv.retLt sid h2
        · intro s hsm hstream
          have hne : cur ≠ s := by
            intro he
            rw [← he, hs] at hstream
            exact Bool.false_ne_true hstream
          have hc := inv.cancelCnt s hsm hstream
          rw [hcur, if_neg (fun hq => hne (Option.some.inj hq))] at hc
          rw [if_neg (fun hq => Option.noConfusion hq)]
          exact hc
      · rw [clear_body_some_stream st cur hcur hfresh hs]
        refine ⟨?_, ?_, ?_, ?_, ?_, ?_, ?_, ?_⟩ <;> dsimp only
        · exact inv.sidLt
        · exact inv.nodup
        · intro s h
          exact Option.noConfusion h
        · intro s h
          exact Option.noConfusion h
        · have h := inv.countEq
          rw [hcur] at h
          simp at h ⊢
          omega
        · intro sid h
          rcases List.mem_append.1 h with h2 | h2
          · exact inv.evLt sid h2
          · simp at h2
            omega
        · intro sid h
          rcases List.mem_cons.1 h with h2 | h2
          · omega
          · exact inv.retLt sid h2
        · intro s hsm hstream
          rw [if_neg (fun hq => Option.noConfusion hq), List.count_append]
          by_cases he : s = cur
          · subst he
            have hc := inv.cancelCnt s hsm hstream
            rw [hcur, if_pos rfl] at hc
            rw [hc]
            simp
          · have hsid : s.sid ≠ cur.sid := by
              intro hq
              exact he (List.inj_on_of_nodup_map inv.nodup hsm hmemc hq)
            have hc := inv.cancelCnt s hsm hstream
            rw [hcur, if_neg (fun hq => he (Option.some.inj hq).symm)] at hc
            rw [hc]
            simp [List.count_cons, hsid]

theorem slotInv_gen_irrel (c : Option Source) (g g' n : Nat) (r o : List Nat)
    (rc : Nat) (a : List Source) (e : List Event) (ss : Option Session)
    (inv : SlotInv (St.mk c g n r o rc a e ss)) :
    SlotInv (St.mk c g' n r o rc a e ss) :=
  ⟨inv.sidLt, inv.nodup, inv.curMem, inv.curFresh, inv.countEq, inv.evLt,
    inv.retLt, inv.cancelCnt⟩

theorem slotInv_finalize (st : St) (inv : SlotInv st) :
    SlotInv (finalize st) := by
  cases hcur : st.current with
  | none =>
      rw [finalize_none st hcur]
      exact inv
  | some cur =>
      have hfresh : cur.sid ∉ st.retiredSids := inv.curFresh cur hcur
      have hclear := slotInv_clear_body st inv
      cases hs : cur.streamLike
      · rw [finalize_some_inert st cur hcur hfresh hs]
        rw [clear_body_some_inert st cur hcur hfresh hs] at hclear
        exact slotInv_gen_irrel _ _ _ _ _ _ _ _ _ _ hclear
      · rw [finalize_some_stream st cur hcur hfresh hs]
        rw [clear_body_some_stream st cur hcur hfresh hs] at hclear
        exact slotInv_gen_irrel _ _ _ _ _ _ _ _ _ _ hclear

theorem slotInv_runSlot (ops : List SlotOp) (st : St) (inv : SlotInv st) :
    SlotInv (runSlot ops st) := by
  induction ops generalizing st with
  | nil => exact inv
  | cons op rest ih =>
      cases op with
      | assign v => exact ih _ (slotInv_set_body v st inv)
      | clear => exact ih _ (slotInv_clear_body st inv)

theorem finalize_current_none (st : St) : (finalize st).current = none := by
  cases hcur : st.current with
  | none =>
      rw [finalize_none st hcur]
      exact hcur
  | some cur => simp [finalize, hcur]

/-! ## Claims -/

/-- C9: the `success` field of each test operation's result is a constant
determined solely by which operation was called — `simulateFixedBehavior`
and `testFixedBehavior` always return `success = true`,
`simulateOriginalBehavior` and `testBuggyBehavior` always return
`success = false` — independent of the observed counter values. -/
theorem success_constant_per_operation :
    (∀ tr : TestResults, (simulateOriginalBehavior tr).1.success = false) ∧
    (∀ tr : TestResults, (simulateFixedBehavior tr).1.success = true) ∧
    (∀ r : PartEntry, (testBuggyResult r).success = false) ∧
    (∀ r : PartEntry, (testFixedResult r).success = true) := by
  refine ⟨fun tr => ?_, fun tr => ?_, fun r => ?_, fun r => ?_⟩ <;>
    simp [simulateOriginalBehavior, simulateFixedBehavior,
      testBuggyResult, testFixedResult]

/-- C10: in the original `.pipe()` path the counters are cumulative and the
leak is permanent: each original-behavior invocation increments
`streamsCreated`, `activeConnections` and `activeStreams`; no demo
operation ever decrements `original.activeStreams`; hence after any
sequence of operations containing n original-behavior invocations,
`original.activeStreams` equals n. -/
theorem original_activeStreams_leak (ops : List DemoOp) :
    (runDemo ops TestResults.init).original.activeStreams = countOrigRequests ops ∧
    (∀ op tr, tr.original.activeStreams ≤ (applyDemoOp op tr).original.activeStreams) ∧
    (∀ tr : TestResults,
      (simulateOriginalBehavior tr).2.original.streamsCreated =
        tr.original.streamsCreated + 1 ∧
      (simulateOriginalBehavior tr).2.original.activeConnections =
        tr.original.activeConnections + 1 ∧
      (simulateOriginalBehavior tr).2.original.activeStreams =
        tr.original.activeStreams + 1) := by
  refine ⟨?_, ?_, ?_⟩
  · rw [runDemo_origStreams]; simp [TestResults.init, Entry.init]
  · intro op tr
    cases op <;>
      simp [applyDemoOp, simulateOriginalBehavior, simulateFixedBehavior,
        originalDisconnect, pipelineCleanup]
  · intro tr
    simp [simulateOriginalBehavior]

/-- C3: for every sequence of `set_body` calls followed by finalize, the
number of retire invocations equals the number of distinct Source
instances ever assigned (including the one active at finalize) — the
assigned instances carry pairwise distinct allocation ids — and every
stream-like source ever assigned has been cancelled exactly once,
whether or not it was ever forwarded. -/
theorem retire_count_matches_assigned (ops : List SlotOp) :
    (finalize (runSlot ops St.init)).retireCalls =
      (finalize (runSlot ops St.init)).assigned.length ∧
    ((finalize (runSlot ops St.init)).assigned.map Source.sid).Nodup ∧
    ∀ s ∈ (finalize (runSlot ops St.init)).assigned, s.streamLike = true →
      (finalize (runSlot ops St.init)).events.count (Event.cancel s.sid) = 1 := by
  have inv := slotInv_finalize (runSlot ops St.init)
    (slotInv_runSlot ops St.init slotInv_init)
  have hnone := finalize_current_none (runSlot ops St.init)
  refine ⟨?_, inv.nodup, ?_⟩
  · have h := inv.countEq
    rw [hnone] at h
    simpa using h
  · intro s hsm hstream
    have h := inv.cancelCnt s hsm hstream
    rw [hnone, if_neg (fun hq => Option.noConfusion hq)] at h
    exact h

/-- Operation sequence used to witness C3: two distinct stream bodies
assigned in succession. -/
def c3ops : List SlotOp :=
  [SlotOp.assign { ident := 1, payload := 10, streamLike := true },
   SlotOp.assign { ident := 2, payload := 20, streamLike := true }]

/-- C3 witness: on two successive stream assignments followed by finalize,
both instances are retired and each is cancelled exactly once. -/
theorem retire_count_matches_assigned_witness :
    (finalize (runSlot c3ops St.init)).retireCalls =
      (finalize (runSlot c3ops St.init)).assigned.length ∧
    (finalize (runSlot c3ops St.init)).events.count (Event.cancel 0) = 1 ∧
    (finalize (runSlot c3ops St.init)).events.count (Event.cancel 1) = 1 := by
  refine ⟨(retire_count_matches_assigned c3ops).1, ?_, ?_⟩
  · exact (retire_count_matches_assigned c3ops).2.2
      { sid := 0, ident := 1, payload := 10, streamLike := true }
      (by decide) (by decide)
  · exact (retire_count_matches_assigned c3ops).2.2
      { sid := 1, ident := 2, payload := 20, streamLike := true }
      (by decide) (by decide)

/-- C4: assigning a body value identical by object identity to the current
one is a no-op with respect to cleanup — it never retires or destroys that
instance — while assigning a distinct object (even one equal in value)
does retire the displaced source: the comparison is by identity, not value
equality. -/
theorem assign_identical_noop (st : St) (cur : Source) (v : BodyVal)
    (hcur : st.current = some cur) :
    (cur.ident = v.ident → set_body v st = st) ∧
    (cur.ident ≠ v.ident → cur.payload = v.payload →
      (set_body v st).retireCalls = st.retireCalls + 1) := by
  constructor
  · intro h
    simp [set_body, hcur, h]
  · intro h _
    by_cases hr : cur.sid ∈ st.retiredSids
    · simp [set_body, hcur, h, adapt, retire_already cur st hr]
    · cases hs : cur.streamLike
      · simp [set_body, hcur, h, adapt, retire_inert cur st hr hs]
      · simp [set_body, hcur, h, adapt, retire_stream cur st hr hs]

/-- C4 witness. -/
theorem assign_identical_noop_witness :
    (set_body { ident := 5, payload := 7, streamLike := true }
      { St.init with
        current := some { sid := 0, ident := 5, payload := 7, streamLike := true } } =
      { St.init with
        current := some { sid := 0, ident := 5, payload := 7, streamLike := true } }) ∧
    ((set_body { ident := 6, payload := 7, streamLike := true }
      { St.init with
        current := some { sid := 0, ident := 5, payload := 7, streamLike := true } }).retireCalls =
      ({ St.init with
         current := some { sid := 0, ident := 5, payload := 7, streamLike := true } } : St).retireCalls + 1) := by
  constructor
  · exact (assign_identical_noop _ _ _ rfl).1 rfl
  · exact (assign_identical_noop
      { St.init with
        current := some { sid := 0, ident := 5, payload := 7, streamLike := true } }
      { sid := 0, ident := 5, payload := 7, streamLike := true }
      { ident := 6, payload := 7, streamLike := true } rfl).2 (by decide) rfl

/-- C1: when a stream-like source A, currently assigned and not yet
retired, is replaced by a different body value before reaching
end-of-data, an error A raises afterwards is observed and discarded by the
no-op observer attached at replacement time: no `report(error)` occurs for
A and no unhandled fault propagates. -/
theorem superseded_source_error_suppressed (st : St) (a : Source) (v : BodyVal)
    (hcur : st.current = some a) (hs : a.streamLike = true)
    (hfresh : a.sid ∉ st.retiredSids) (hv : a.ident ≠ v.ident) :
    (raiseError a (set_body v st)).events =
      (set_body v st).events ++ [Event.errorObserved a.sid] ∧
    ((raiseError a (set_body v st)).events.count (Event.reportError a.sid) =
      st.events.count (Event.reportError a.sid)) ∧
    ((raiseError a (set_body v st)).events.count (Event.unhandledFault a.sid) =
      st.events.count (Event.unhandledFault a.sid)) := by
  rw [set_body_replace_stream v st a hcur hv hfresh hs]
  refine ⟨?_, ?_, ?_⟩ <;>
    simp [raiseError, List.count_append, List.count_cons]

/-- State used to witness C1: a stream-like body is the current source. -/
def c1st : St :=
  { St.init with current := some ⟨0, 1, 10, true⟩ }

/-- Body value used to witness C1: a different object. -/
def c1v : BodyVal := { ident := 2, payload := 10, streamLike := true }

/-- C1 witness: after replacing the stream body, its error is observed and
discarded. -/
theorem superseded_source_error_suppressed_witness :
    (raiseError ⟨0, 1, 10, true⟩ (set_body c1v c1st)).events =
      (set_body c1v c1st).events ++ [Event.errorObserved 0] :=
  (superseded_source_error_suppressed c1st ⟨0, 1, 10, true⟩ c1v rfl rfl
    (by decide) (by decide)).1

/-- Observers collected by a trace scan, left to right. -/
def attachesIn (seen : List Nat) : List Event → List Nat
  | [] => seen
  | Event.attachObserver sid :: rest => attachesIn (sid :: seen) rest
  | _ :: rest => attachesIn seen rest

theorem cancelsCovered_append (seen : List Nat) (l1 l2 : List Event) :
    cancelsCovered seen (l1 ++ l2) =
      (cancelsCovered seen l1 && cancelsCovered (attachesIn seen l1) l2) := by
  induction l1 generalizing seen with
  | nil => simp [cancelsCovered, attachesIn]
  | cons e rest ih =>
      cases e <;> simp [cancelsCovered, attachesIn, ih, Bool.and_assoc]

theorem retire_events_block (s : Source) (st : St) :
    ∃ b, (retire s st).events = st.events ++ b ∧
      ∀ seen, cancelsCovered seen b = true := by
  by_cases h : s.sid ∈ st.retiredSids
  · refine ⟨[], ?_, fun seen => rfl⟩
    rw [retire_already s st h]
    simp
  · cases hs : s.streamLike
    · refine ⟨[], ?_, fun seen => rfl⟩
      rw [retire_inert s st h hs]
      simp
    · refine ⟨[Event.attachObserver s.sid, Event.cancel s.sid], ?_, fun seen => ?_⟩
      · rw [retire_stream s st h hs]
      · simp [cancelsCovered]

theorem set_body_events_block (v : BodyVal) (st : St) :
    ∃ b, (set_body v st).events = st.events ++ b ∧
      ∀ seen, cancelsCovered seen b = true := by
  cases hcur : st.current with
  | none =>
      refine ⟨[], ?_, fun seen => rfl⟩
      rw [set_body_none v st hcur]
      simp
  | some cur =>
      by_cases hid : cur.ident = v.ident
      · refine ⟨[], ?_, fun seen => rfl⟩
        rw [set_body_same v st cur hcur hid]
        simp
      · obtain ⟨b, hb, hgood⟩ := retire_events_block cur st
        refine ⟨b, ?_, hgood⟩
        simp only [set_body, hcur, adapt, hid, if_neg hid]
        exact hb

theorem clear_body_events_block (st : St) :
    ∃ b, (clear_body st).events = st.events ++ b ∧
      ∀ seen, cancelsCovered seen b = true := by
  cases hcur : st.current with
  | none =>
      refine ⟨[], ?_, fun seen => rfl⟩
      rw [clear_body_none st hcur]
      simp
  | some cur =>
      obtain ⟨b, hb, hgood⟩ := retire_events_block cur st
      refine ⟨b, ?_, hgood⟩
      simp only [clear_body, hcur]
      exact hb

theorem finalize_events_block (st : St) :
    ∃ b, (finalize st).events = st.events ++ b ∧
      ∀ seen, cancelsCovered seen b = true := by
  cases hcur : st.current with
  | none =>
      refine ⟨[], ?_, fun seen => rfl⟩
      rw [finalize_none st hcur]
      simp
  | some cur =>
      obtain ⟨b, hb, hgood⟩ := retire_events_block cur st
      refine ⟨b, ?_, hgood⟩
      simp only [finalize, hcur]
      exact hb

theorem raiseError_events_block (s : Source) (st : St) :
    ∃ b, (raiseError s st).events = st.events ++ b ∧
      ∀ seen, cancelsCovered seen b = true := by
  by_cases hobs : s.sid ∈ st.observers
  · refine ⟨[Event.errorObserved s.sid], ?_, fun seen => rfl⟩
    simp [raiseError, hobs]
  · cases hses : st.session with
    | none =>
        refine ⟨[Event.unhandledFault s.sid], ?_, fun seen => rfl⟩
        simp [raiseError, hobs, hses]
    | some ses =>
        by_cases hcond : ses.phase = Phase.draining ∧ ses.src.sid = s.sid
        · by_cases hgen : ses.gen = st.generation
          · obtain ⟨b, hb, hgood⟩ := retire_events_block ses.src st
            refine ⟨b ++ [Event.reportError s.sid], ?_, fun seen => ?_⟩
            · simp [raiseError, hobs, hses, hcond, hgen, hb]
            · rw [cancelsCovered_append]
              simp [hgood, cancelsCovered]
          · refine ⟨[], ?_, fun seen => rfl⟩
            simp [raiseError, hobs, hses, hcond, hgen]
        · refine ⟨[Event.unhandledFault s.sid], ?_, fun seen => rfl⟩
          simp [raiseError, hobs, hses, hcond]

theorem sinkAbort_events_block (st : St) :
    ∃ b, (sinkAbort st).events = st.events ++ b ∧
      ∀ seen, cancelsCovered seen b = true := by
  cases hses : st.session with
  | none =>
      refine ⟨[], ?_, fun seen => rfl⟩
      simp [sinkAbort, hses]
  | some ses =>
      by_cases hph : ses.phase = Phase.draining
      · obtain ⟨b, hb, hgood⟩ := retire_events_block ses.src st
        refine ⟨b, ?_, hgood⟩
        simp only [sinkAbort, hses, if_pos hph]
        exact hb
      · refine ⟨[], ?_, fun seen => rfl⟩
        simp [sinkAbort, hses, hph]

theorem completeSession_events (st : St) :
    (completeSession st).events = st.events := by
  cases hses : st.session with
  | none => simp [completeSession, hses]
  | some ses =>
      by_cases hph : ses.phase = Phase.draining <;>
        simp [completeSession, hses, hph]

theorem beginSession_events (st : St) :
    (beginSession st).events = st.events := by
  cases hc : st.current <;> cases hs : st.session <;>
    simp [beginSession, hc, hs]

theorem pipeWrite_events_block (st : St) :
    ∃ b, (pipeWrite st).events = st.events ++ b ∧
      ∀ seen, cancelsCovered seen b = true := by
  cases hses : st.session with
  | none =>
      refine ⟨[], ?_, fun seen => rfl⟩
      simp [pipeWrite, hses]
  | some ses =>
      by_cases hph : ses.phase = Phase.draining
      · by_cases hgen : ses.gen = st.generation
        · refine ⟨[Event.sinkWrite ses.src.sid], ?_, fun seen => rfl⟩
          simp [pipeWrite, hses, hph, hgen]
        · refine ⟨[], ?_, fun seen => rfl⟩
          simp [pipeWrite, hses, hph, hgen]
      · refine ⟨[], ?_, fun seen => rfl⟩
        simp [pipeWrite, hses, hph]

theorem converge_events (st : St) :
    (converge st).events = st.events := by
  cases hses : st.session with
  | none => simp [converge, hses]
  | some ses =>
      by_cases hph : ses.phase = Phase.draining <;>
        simp [converge, hses, hph]

theorem applySysOp_events_block (op : SysOp) (st : St) :
    ∃ b, (applySysOp op st).events = st.events ++ b ∧
      ∀ seen, cancelsCovered seen b = true := by
  cases op with
  | assign v => exact set_body_events_block v st
  | clear => exact clear_body_events_block st
  | finalizeOp => exact finalize_events_block st
  | beginOp => exact ⟨[], by simp [applySysOp, beginSession_events], fun seen => rfl⟩
  | raise s => exact raiseError_events_block s st
  | abortOp => exact sinkAbort_events_block st
  | completeOp => exact ⟨[], by simp [applySysOp, completeSession_events], fun seen => rfl⟩
  | writeOp => exact pipeWrite_events_block st
  | convergeOp => exact ⟨[], by simp [applySysOp, converge_events], fun seen => rfl⟩

theorem runSys_cancelsCovered (ops : List SysOp) (st : St)
    (h : cancelsCovered [] st.events = true) :
    cancelsCovered [] (runSys ops st).events = true := by
  induction ops generalizing st with
  | nil => exact h
  | cons op rest ih =>
      obtain ⟨b, hb, hgood⟩ := applySysOp_events_block op st
      refine ih (applySysOp op st) ?_
      rw [hb, cancelsCovered_append]
      simp [h, hgood]

/-- C2: for every stream-like source being retired, the no-op error
observer is attached strictly before cancellation is issued: along every
reachable trace the left-to-right scan finds an `attachObserver sid`
before every `cancel sid`; an inert retire emits nothing; a fresh
stream-like retire emits exactly the attach-then-cancel pair, in that
order. -/
theorem observer_attached_before_cancel (ops : List SysOp) :
    cancelsCovered [] (runSys ops St.init).events = true ∧
    (∀ s : Source, ∀ st : St, s.streamLike = false →
      (retire s st).events = st.events) ∧
    (∀ s : Source, ∀ st : St, s.streamLike = true → s.sid ∉ st.retiredSids →
      (retire s st).events =
        st.events ++ [Event.attachObserver s.sid, Event.cancel s.sid]) := by
  refine ⟨runSys_cancelsCovered ops St.init rfl, ?_, ?_⟩
  · intro s st hs
    by_cases h : s.sid ∈ st.retiredSids
    · rw [retire_already s st h]
    · rw [retire_inert s st h hs]
  · intro s st hs h
    rw [retire_stream s st h hs]

/-- C2 witness: retiring a fresh stream-like source emits the observer
attachment first and the cancel second. -/
theorem observer_attached_before_cancel_witness :
    (retire ⟨0, 1, 10, true⟩ St.init).events =
      [Event.attachObserver 0, Event.cancel 0] := by
  have h := (observer_attached_before_cancel []).2.2
    ⟨0, 1, 10, true⟩ St.init rfl (by decide)
  simpa [St.init] using h

/-- C5: retire is idempotent per source instance: a second retire of the
same source changes nothing observable — it leaves the event trace (so no
second cancel is issued), the attached observers and the retirement
records untouched; only the invocation counter ticks. -/
theorem retire_idempotent (s : Source) (st : St) :
    retire s (retire s st) =
      { retire s st with retireCalls := (retire s st).retireCalls + 1 } ∧
    (retire s (retire s st)).events = (retire s st).events ∧
    (retire s (retire s st)).observers = (retire s st).observers ∧
    (retire s (retire s st)).retiredSids = (retire s st).retiredSids := by
  have h := retire_already s (retire s st) (mem_retire_retiredSids s st)
  refine ⟨h, ?_, ?_, ?_⟩ <;> rw [h]

theorem raiseError_stale_count (st : St) (s : Source) (ses : Session)
    (hses : st.session = some ses) (hgen : ses.gen ≠ st.generation) (sid : Nat) :
    (raiseError s st).events.count (Event.reportError sid) =
      st.events.count (Event.reportError sid) := by
  by_cases hobs : s.sid ∈ st.observers
  · simp [raiseError, hobs, List.count_append]
  · by_cases hcond : ses.phase = Phase.draining ∧ ses.src.sid = s.sid
    · simp [raiseError, hobs, hses, hcond, hgen]
    · simp [raiseError, hobs, hses, hcond, List.count_append]

/-- C6: when the currently active (live, non-superseded) source of a
draining session raises an error, the pipeline retires it exactly once
(one retire invocation, one cancel) and reports the error exactly once,
transitioning to Errored; no report is ever issued on a Completed
transition or by a stale session. -/
theorem active_source_error_reported_once (st : St) (ses : Session)
    (hses : st.session = some ses) (hph : ses.phase = Phase.draining)
    (hgen : ses.gen = st.generation)
    (hobs : ses.src.sid ∉ st.observers)
    (hfresh : ses.src.sid ∉ st.retiredSids)
    (hs : ses.src.streamLike = true) :
    ((raiseError ses.src st).events =
      st.events ++ [Event.attachObserver ses.src.sid, Event.cancel ses.src.sid,
        Event.reportError ses.src.sid]) ∧
    (raiseError ses.src st).retireCalls = st.retireCalls + 1 ∧
    ((raiseError ses.src st).events.count (Event.reportError ses.src.sid) =
      st.events.count (Event.reportError ses.src.sid) + 1) ∧
    ((raiseError ses.src st).events.count (Event.cancel ses.src.sid) =
      st.events.count (Event.cancel ses.src.sid) + 1) ∧
    (raiseError ses.src st).session = some { ses with phase := Phase.errored } ∧
    (∀ st' : St, (completeSession st').events = st'.events) ∧
    (∀ st' : St, ∀ s' : Source, ∀ ses' : Session, st'.session = some ses' →
      ses'.gen ≠ st'.generation → ∀ sid,
      (raiseError s' st').events.count (Event.reportError sid) =
        st'.events.count (Event.reportError sid)) := by
  refine ⟨?_, ?_, ?_, ?_, ?_, completeSession_events,
    fun st' s' ses' h1 h2 sid => raiseError_stale_count st' s' ses' h1 h2 sid⟩ <;>
    simp [raiseError, hobs, hses, hph, hgen,
      retire_stream ses.src st hfresh hs, List.count_append, List.count_cons]

/-- Source and state used to witness C6: a live draining session. -/
def c6src : Source := ⟨0, 1, 10, true⟩

def c6st : St :=
  { St.init with
    current := some c6src,
    session := some { src := c6src, gen := 0, phase := Phase.draining } }

/-- C6 witness: the live active source's error yields observe, cancel and
exactly one report. -/
theorem active_source_error_reported_once_witness :
    (raiseError c6src c6st).events =
      [Event.attachObserver 0, Event.cancel 0, Event.reportError 0] := by
  have h := (active_source_error_reported_once c6st
    { src := c6src, gen := 0, phase := Phase.draining }
    rfl rfl rfl (by decide) (by decide) rfl).1
  simpa [c6st, St.init] using h

/-- C7: a sink abort (client disconnect) during draining transitions the
session to Aborted and retires the active source with the same cleanup
action as the error path (attach observer, then cancel, one retire
invocation), while issuing no `report(error)` call. -/
theorem sink_abort_aborts_and_retires (st : St) (ses : Session)
    (hses : st.session = some ses) (hph : ses.phase = Phase.draining)
    (hfresh : ses.src.sid ∉ st.retiredSids) (hs : ses.src.streamLike = true) :
    (sinkAbort st).session = some { ses with phase := Phase.aborted } ∧
    (sinkAbort st).events =
      st.events ++ [Event.attachObserver ses.src.sid, Event.cancel ses.src.sid] ∧
    (sinkAbort st).retireCalls = st.retireCalls + 1 ∧
    ∀ sid, (sinkAbort st).events.count (Event.reportError sid) =
      st.events.count (Event.reportError sid) := by
  refine ⟨?_, ?_, ?_, ?_⟩ <;>
    simp [sinkAbort, hses, hph, retire_stream ses.src st hfresh hs,
      List.count_append, List.count_cons]

/-- C7 witness: aborting the sink on a live draining session retires the
source (observer then cancel) and reports nothing. -/
theorem sink_abort_aborts_and_retires_witness :
    (sinkAbort c6st).events = [Event.attachObserver 0, Event.cancel 0] ∧
    (sinkAbort c6st).events.count (Event.reportError 0) = 0 := by
  have h := sink_abort_aborts_and_retires c6st
    { src := c6src, gen := 0, phase := Phase.draining }
    rfl rfl (by decide) rfl
  constructor
  · have h1 := h.2.1
    simpa [c6st, St.init] using h1
  · have h2 := h.2.2.2 0
    simpa [c6st, St.init] using h2

/-- C8: the sink only receives bytes produced under the currently active
generation: a live draining session's write reaches the sink, while a
session whose captured generation no longer matches the slot's discards
the write — emitting no event at all, in particular no error — and stops
producing further writes. -/
theorem stale_session_writes_discarded (st : St) (ses : Session)
    (hses : st.session = some ses) (hph : ses.phase = Phase.draining) :
    (ses.gen = st.generation →
      (pipeWrite st).events = st.events ++ [Event.sinkWrite ses.src.sid]) ∧
    (ses.gen ≠ st.generation →
      (pipeWrite st).events = st.events ∧
      (pipeWrite st).session = none ∧
      pipeWrite (pipeWrite st) = pipeWrite st) := by
  constructor
  · intro hgen
    simp [pipeWrite, hses, hph, hgen]
  · intro hgen
    have h1 : pipeWrite st = { st with session := none } := by
      simp [pipeWrite, hses, hph, hgen]
    refine ⟨by rw [h1], by rw [h1], ?_⟩
    rw [h1]
    simp [pipeWrite]

/-- State used to witness C8: a session captured under generation 0 while
the slot has advanced to generation 1. -/
def c8st : St :=
  { St.init with
    generation := 1,
    session := some { src := c6src, gen := 0, phase := Phase.draining } }

/-- C8 witness: the stale session's write is discarded and the session is
destroyed. -/
theorem stale_session_writes_discarded_witness :
    (pipeWrite c8st).events = c8st.events ∧ (pipeWrite c8st).session = none := by
  have h := (stale_session_writes_discarded c8st
    { src := c6src, gen := 0, phase := Phase.draining } rfl rfl).2 (by decide)
  exact ⟨h.1, h.2.1⟩

end KoaPatch
